import Mathlib

set_option maxRecDepth 16384

/-!
Verification of the contribution-aggregation pipeline of the
GitHub-Contributions-README-Generator repository.

The Python sources `github_api.py` and `config_manager.py` are shallowly
embedded below: Python sets of `(nameWithOwner, url)` tuples become
`Finset (String × String)`, Python dicts become association lists or
functions into `Option`, network I/O outcomes become explicit result
values, and Python exceptions become the error side of `Except`.
-/

/-- A repository object as it appears in the raw GraphQL payload:
`repository \x7b nameWithOwner url isPrivate isFork \x7d`. -/
structure Repo where
  nameWithOwner : String
  url : String
  isPrivate : Bool
  isFork : Bool
deriving DecidableEq, Repr

/-- The `(full_name, url)` value pair used as repository identity. -/
abbrev RepoRef := String × String

/-- One `contributionsCollection` block of the payload.  Historical-year
blocks carry only the first two repository lists and the direct repository
contributions; the missing fields correspond to `cc.get(key, [])`
returning the default `[]` in the Python source. -/
structure CC where
  commitContributionsByRepository : List Repo := []
  pullRequestContributionsByRepository : List Repo := []
  issueContributionsByRepository : List Repo := []
  pullRequestReviewContributionsByRepository : List Repo := []
  repositoryContributions : List Repo := []

/-- The nested user object of the contributions response: a dict from keys
(such as `contributionsCollection` or `contributionsCollection2019`) to a
contribution collection, `none` standing for a null or empty (falsy) value. -/
abbrev UserData := List (String × Option CC)

/-- Python `s.startswith(pre)`: the characters of `pre` lead those of
`s`. -/
def pyStartsWith (s pre : String) : Bool :=
  pre.data.isPrefixOf s.data

/-- The numeric value of a decimal digit character. -/
def digitVal? (c : Char) : Option Nat :=
  if '0' ≤ c ∧ c ≤ '9' then some (c.toNat - '0'.toNat) else none

/-- Accumulating decimal parse of a character list; `none` as soon as a
non-digit appears. -/
def charsToNatAux : List Char → Nat → Option Nat
  | [], acc => some acc
  | c :: rest, acc =>
    match digitVal? c with
    | some d => charsToNatAux rest (acc * 10 + d)
    | none => none

/-- Parse a non-empty all-digit character list as a natural number. -/
def charsToNat? (cs : List Char) : Option Nat :=
  if cs.isEmpty then none else charsToNatAux cs 0

/-- Fueled kernel of Python `s.replace(pat, sub)`: scan left to right,
replacing non-overlapping occurrences of `pat`. -/
def pyReplaceAux (pat sub : List Char) : Nat → List Char → List Char
  | _, [] => []
  | 0, s => s
  | fuel + 1, c :: rest =>
    if pat.isPrefixOf (c :: rest) then
      sub ++ pyReplaceAux pat sub fuel ((c :: rest).drop pat.length)
    else
      c :: pyReplaceAux pat sub fuel rest

/-- Python `s.replace(pat, sub)` for a non-empty pattern. -/
def pyReplace (s pat sub : String) : String :=
  ⟨pyReplaceAux pat.data sub.data s.data.length s.data⟩

/-- Embedding of `_add_repo_if_valid(repo_set, repo, repos_all)` from `github_api.py`:
adds the repository tuple to both sets iff it is public and not a fork;
returns the updated `(repo_set, repos_all)` pair. -/
def _add_repo_if_valid (repo_set : Finset RepoRef) (repo : Repo) (repos_all : Finset RepoRef) :
    Finset RepoRef × Finset RepoRef :=
  if !repo.isPrivate && !repo.isFork then
    (insert (repo.nameWithOwner, repo.url) repo_set,
     insert (repo.nameWithOwner, repo.url) repos_all)
  else
    (repo_set, repos_all)

/-- The `for item in cc.get(..., [])` loops of
`_process_contribution_collection`: fold `_add_repo_if_valid` over a list
of repository objects. -/
def _add_repos (items : List Repo) (repo_set repos_all : Finset RepoRef) :
    Finset RepoRef × Finset RepoRef :=
  items.foldl (fun st r => _add_repo_if_valid st.1 r st.2) (repo_set, repos_all)

/-- Embedding of `_process_contribution_collection(cc, repos_commit, repos_pr, repos_all,
is_current_year)` from `github_api.py`.  Issue and review contributions are
only visited for the current-year block; issues, reviews and direct
repository contributions go through a throwaway set and only enlarge
`repos_all`. -/
def _process_contribution_collection (cc : CC)
    (repos_commit repos_pr repos_all : Finset RepoRef) (is_current_year : Bool) :
    Finset RepoRef × Finset RepoRef × Finset RepoRef :=
  let st1 := _add_repos cc.commitContributionsByRepository repos_commit repos_all
  let repos_commit := st1.1
  let repos_all := st1.2
  let st2 := _add_repos cc.pullRequestContributionsByRepository repos_pr repos_all
  let repos_pr := st2.1
  let repos_all := st2.2
  let repos_all :=
    if is_current_year then
      let st3 := _add_repos cc.issueContributionsByRepository ∅ repos_all
      let st4 := _add_repos cc.pullRequestReviewContributionsByRepository ∅ st3.2
      st4.2
    else repos_all
  let st5 := _add_repos cc.repositoryContributions ∅ repos_all
  (repos_commit, repos_pr, st5.2)

/-- The loop body of `_extract_repositories_data`: skip entries whose key
does not start with `contributionsCollection` and entries whose value is
falsy; process the rest, the exact key `contributionsCollection` being the
current-year block. -/
def _extract_step (st : Finset RepoRef × Finset RepoRef × Finset RepoRef)
    (kv : String × Option CC) : Finset RepoRef × Finset RepoRef × Finset RepoRef :=
  match kv.2 with
  | none => st
  | some cc =>
    if pyStartsWith kv.1 "contributionsCollection" then
      _process_contribution_collection cc st.1 st.2.1 st.2.2 (kv.1 == "contributionsCollection")
    else st

/-- The record returned by `_extract_repositories_data`. -/
structure ReposData where
  repos_commit_only : Finset RepoRef
  repos_pr_only : Finset RepoRef
  repos_other : Finset RepoRef
deriving DecidableEq

/-- Embedding of `_extract_repositories_data(user_data)` from `github_api.py`. -/
def _extract_repositories_data (user_data : UserData) : ReposData :=
  let st := user_data.foldl _extract_step (∅, ∅, ∅)
  let repos_commit := st.1
  let repos_pr := st.2.1
  let repos_all := st.2.2
  { repos_commit_only := repos_commit.filter (fun r => r ∉ repos_pr)
    repos_pr_only := repos_pr
    repos_other := (repos_all \ repos_commit) \ repos_pr }

/-! Specification-side descriptions of the sets the aggregator builds,
used to state the partition invariant.  `validRefs` collects the tuples of
the public, non-fork repositories of a list; `processedBlocks` lists the
contribution collections the aggregator visits together with their
current-year flag. -/

/-- Tuples of the public, non-fork repositories of a list of payload
repository objects. -/
def validRefs (items : List Repo) : Finset RepoRef :=
  ((items.filter fun r => !r.isPrivate && !r.isFork).map
    fun r => (r.nameWithOwner, r.url)).toFinset

/-- The repository lists of a block that the aggregator visits: commits,
pull requests, issues and reviews (current year only), and direct
repository contributions. -/
def CC.visitedRepos (cc : CC) (is_current_year : Bool) : List Repo :=
  cc.commitContributionsByRepository ++
    cc.pullRequestContributionsByRepository ++
    (if is_current_year then
      cc.issueContributionsByRepository ++ cc.pullRequestReviewContributionsByRepository
    else []) ++
    cc.repositoryContributions

/-- The contribution collections of a payload that the aggregator visits,
together with their current-year flag. -/
def processedBlocks (user_data : UserData) : List (CC × Bool) :=
  user_data.foldr
    (fun kv acc =>
      match kv.2 with
      | some cc =>
        if pyStartsWith kv.1 "contributionsCollection" then
          (cc, kv.1 == "contributionsCollection") :: acc
        else acc
      | none => acc) []

/-- All admitted (public, non-fork) repositories with a qualifying commit
contribution. -/
def commitAdmitted (user_data : UserData) : Finset RepoRef :=
  (processedBlocks user_data).foldr
    (fun b acc => validRefs b.1.commitContributionsByRepository ∪ acc) ∅

/-- All admitted (public, non-fork) repositories with a qualifying pull
request contribution. -/
def prAdmitted (user_data : UserData) : Finset RepoRef :=
  (processedBlocks user_data).foldr
    (fun b acc => validRefs b.1.pullRequestContributionsByRepository ∪ acc) ∅

/-- The full set of admitted (public, non-fork) contributed repositories
of a payload. -/
def admittedRepos (user_data : UserData) : Finset RepoRef :=
  (processedBlocks user_data).foldr
    (fun b acc => validRefs (b.1.visitedRepos b.2) ∪ acc) ∅

/-! ### Query Builder (`_build_current_year_query`, `_build_year_query`,
`_build_contributions_query`)

The GraphQL text is reproduced from the source; literal braces are written
with `\x7b` and `\x7d` escapes. -/

/-- The current-year `contributionsCollection` block (five contribution
type fields), verbatim from `_build_current_year_query`. -/
def _build_current_year_query : String :=
  "\n        contributionsCollection \x7b\n            commitContributionsByRepository(maxRepositories: 100) \x7b\n                repository \x7b nameWithOwner url isPrivate isFork \x7d\n            \x7d\n            pullRequestContributionsByRepository(maxRepositories: 100) \x7b\n                repository \x7b nameWithOwner url isPrivate isFork \x7d\n            \x7d\n            issueContributionsByRepository(maxRepositories: 100) \x7b\n                repository \x7b nameWithOwner url isPrivate isFork \x7d\n            \x7d\n            pullRequestReviewContributionsByRepository(maxRepositories: 100) \x7b\n                repository \x7b nameWithOwner url isPrivate isFork \x7d\n            \x7d\n            repositoryContributions(first: 100) \x7b\n                edges \x7b node \x7b repository \x7b nameWithOwner url isPrivate isFork \x7d \x7d \x7d\n            \x7d\n        \x7d\n    "

/-- The fixed text of a historical-year block after the last year
interpolation. -/
def _year_query_tail : String :=
  "-12-31T23:59:59Z\") \x7b\n            commitContributionsByRepository(maxRepositories: 100) \x7b\n                repository \x7b nameWithOwner url isPrivate isFork \x7d\n            \x7d\n            pullRequestContributionsByRepository(maxRepositories: 100) \x7b\n                repository \x7b nameWithOwner url isPrivate isFork \x7d\n            \x7d\n            repositoryContributions(first: 100) \x7b\n                edges \x7b node \x7b repository \x7b nameWithOwner url isPrivate isFork \x7d \x7d \x7d\n            \x7d\n        \x7d\n    "

/-- Embedding of `_build_year_query(year)`: the aliased, date-scoped block for one
historical year (three contribution type fields).  The Python f-string
interpolates `year` three times: in the alias and in the two ISO date
bounds. -/
def _build_year_query (year : Nat) : String :=
  "\n        contributionsCollection" ++ toString year ++
    ": contributionsCollection(from: \"" ++ toString year ++
    "-01-01T00:00:00Z\", to: \"" ++ toString year ++ _year_query_tail

/-- The alias given to the historical block of `year`. -/
def year_alias (year : Nat) : String :=
  "contributionsCollection" ++ toString year

/-- The `contributions_queries` list built by `_build_contributions_query`:
the current-year block followed by one block per year in
`range(created_year, current_year)`. -/
def contributions_query_blocks (created_year current_year : Nat) : List String :=
  _build_current_year_query ::
    (List.range' created_year (current_year - created_year)).map _build_year_query

/-- Embedding of `_build_contributions_query(created_year, current_year)`: the complete
query document, the blocks joined with `chr(10)` inside the user selection;
the literal `\x7busername\x7d` placeholder is substituted later by
`_fetch_contributions_data`. -/
def _build_contributions_query (created_year current_year : Nat) : String :=
  "\n    \x7b\n        user(login: \"\x7busername\x7d\") \x7b\n            " ++
    String.intercalate "\n" (contributions_query_blocks created_year current_year) ++
    "\n        \x7d\n    \x7d\n    "

/-! ### Document Renderer (`_build_readme_section`, `_build_readme_content`) -/

/-- Python tuple comparison on `(full_name, url)` pairs: lexicographic,
strings ordered by code point.  This is the order `sorted(repos_set)`
uses. -/
def repoLE (a b : RepoRef) : Prop := toLex a ≤ toLex b

instance : DecidableRel repoLE := fun a b =>
  (inferInstance : Decidable (toLex a ≤ toLex b))

instance : IsTrans RepoRef repoLE := ⟨fun _ _ _ h h' => le_trans h h'⟩

instance : IsAntisymm RepoRef repoLE :=
  ⟨fun _ _ h h' => toLex.injective (le_antisymm h h')⟩

instance : IsTotal RepoRef repoLE := ⟨fun a b => le_total (toLex a) (toLex b)⟩

/-- Embedding of `sorted(repos_set)`: the elements of the set listed in ascending tuple
order. -/
def sortedRepos (s : Finset RepoRef) : List RepoRef := s.sort repoLE

/-- One bullet line of a section: a Markdown link, suffixed with
`— comment` when the comment map has an entry for the full name. -/
def render_bullet (user_comments : String → Option String) (r : RepoRef) : String :=
  let line := "- [" ++ r.1 ++ "](" ++ r.2 ++ ")"
  match user_comments r.1 with
  | some c => line ++ " — " ++ c
  | none => line

/-- Embedding of `_build_readme_section(section_key, repos_set, user_comments,
translator)`: empty list for an empty set, otherwise a translated
subheading followed by one bullet per repository in sorted order. -/
def _build_readme_section (section_key : String) (repos_set : Finset RepoRef)
    (user_comments : String → Option String) (translator : String → String) : List String :=
  if repos_set = ∅ then []
  else
    ("## " ++ translator section_key ++ "\n") ::
      (sortedRepos repos_set).map (render_bullet user_comments)

/-- Embedding of `_build_readme_content(username, repos_data, user_comments,
translator)`: title line, then the three sections in fixed order, a blank
separator line preceding the pull-request and other sections when they are
emitted, all joined with newlines. -/
def _build_readme_content (username : String) (repos_data : ReposData)
    (user_comments : String → Option String) (translator : String → String) : String :=
  let lines := ["# " ++ translator "categories.profile_git" ++ " : " ++ username ++ "\n"]
  let commit_lines := _build_readme_section "categories.commit_only"
    repos_data.repos_commit_only user_comments translator
  let lines := lines ++ commit_lines
  let pr_lines := _build_readme_section "categories.pull_requests"
    repos_data.repos_pr_only user_comments translator
  let lines := if pr_lines ≠ [] then lines ++ [""] ++ pr_lines else lines
  let other_lines := _build_readme_section "categories.other_contributions"
    repos_data.repos_other user_comments translator
  let lines := if other_lines ≠ [] then lines ++ [""] ++ other_lines else lines
  String.intercalate "\n" lines

/-- Building a Python set by inserting the elements of a list in order;
used to state order-independence of the rendered sections. -/
def ingest (l : List RepoRef) : Finset RepoRef :=
  l.foldl (fun s r => insert r s) ∅

/-- Deleting the entry of `name` from a comment map. -/
def remove_comment (c : String → Option String) (name : String) : String → Option String :=
  fun n => if n = name then none else c n

/-! ### API Client (`test_github_auth`, `_get_user_creation_year`,
`_fetch_contributions_data`, `generate_readme_content`)

Network and JSON failures are made explicit: a Python exception escaping a
function is the `.error` side of `Except`, since none of these functions
contains a `try`/`except` block. -/

/-- The Python exceptions that can escape the API-client functions. -/
inductive PyError where
  | requestException   -- `requests.post` raised (transport failure)
  | jsonDecodeError    -- `response.json()` raised (malformed JSON)
  | attributeError     -- `.get` called on a non-dict value
  | keyError           -- indexing a dict without the expected key
  | valueError         -- `datetime.fromisoformat` rejected the string
deriving DecidableEq, Repr

/-- A JSON value, as far as `test_github_auth` inspects one. -/
inductive JVal where
  | null : JVal
  | str : String → JVal
  | num : Int → JVal
  | obj : List (String × JVal) → JVal
  | arr : List JVal → JVal

/-- First-match association lookup: Python dict access on the unique-keyed
field list of a JSON object. -/
def lookupField : List (String × JVal) → String → Option JVal
  | [], _ => none
  | (k, v) :: rest, key => if k = key then some v else lookupField rest key

/-- Python `value.get(key, dflt)`: `none` models the `AttributeError`
raised when `value` is not a dict. -/
def JVal.dictGet (v : JVal) (key : String) (dflt : JVal) : Option JVal :=
  match v with
  | .obj fields => some ((lookupField fields key).getD dflt)
  | _ => none

/-- Outcome of the HTTP round trip made by `test_github_auth`: the POST
can raise, the body can fail to parse, or a JSON object is decoded. -/
inductive HttpOutcome where
  | transportError
  | malformedJson
  | json (fields : List (String × JVal))

/-- Embedding of `test_github_auth(username, token)` from `github_api.py`, as a function
of the HTTP outcome: `"errors" not in data and data.get("data",
\x7b\x7d).get("viewer", \x7b\x7d).get("login") is not None`, with Python
short-circuiting; exceptions of the transport, the JSON decoder, and the
attribute chain propagate. -/
def test_github_auth (resp : HttpOutcome) : Except PyError Bool :=
  match resp with
  | .transportError => .error .requestException
  | .malformedJson => .error .jsonDecodeError
  | .json fields =>
    if (lookupField fields "errors").isSome then .ok false
    else
      match (JVal.obj fields).dictGet "data" (.obj []) with
      | none => .error .attributeError
      | some d =>
        match d.dictGet "viewer" (.obj []) with
        | none => .error .attributeError
        | some v =>
          match v.dictGet "login" .null with
          | none => .error .attributeError
          | some login =>
            match login with
            | .null => .ok false
            | _ => .ok true

/-- Specification-side characterization of the successful authentication
responses: no top-level error list, and a present, non-null
`data.viewer.login` field (absent intermediate keys default to empty
objects, matching the `.get` defaults). -/
def auth_success_spec (fields : List (String × JVal)) : Bool :=
  (lookupField fields "errors").isNone &&
    (match (lookupField fields "data").getD (.obj []) with
     | .obj dfields =>
       (match (lookupField dfields "viewer").getD (.obj []) with
        | .obj vfields =>
          (match (lookupField vfields "login").getD .null with
           | .null => false
           | _ => true)
        | _ => false)
     | _ => false)

/-- Outcome of one GraphQL fetch, classified by response shape; `α` is the
payload type the caller extracts from a well-shaped `data` object. -/
inductive FetchResult (α : Type) where
  | transportError : FetchResult α   -- `requests.post` raised
  | malformedJson : FetchResult α    -- `response.json()` raised
  | errorsPayload : FetchResult α    -- response with a top-level `errors` key
  | badShape : FetchResult α         -- `data` present but nested fields missing
  | okData : α → FetchResult α       -- well-shaped response data

/-- The year component of `datetime.fromisoformat(s)`: the leading decimal
digits before the first dash; `none` models the `ValueError` raised on a
string without a numeric year. -/
def isoYear (s : String) : Option Nat :=
  charsToNat? (s.data.takeWhile (fun c => c ≠ '-'))

/-- Embedding of `_get_user_creation_year(username, token)` from `github_api.py` as a
function of the fetch outcome: `None` on a top-level error payload,
otherwise the year of `data.user.createdAt` after replacing the trailing
`Z` offset marker; transport, JSON, key and parse errors propagate. -/
def _get_user_creation_year (resp : FetchResult String) : Except PyError (Option Nat) :=
  match resp with
  | .transportError => .error .requestException
  | .malformedJson => .error .jsonDecodeError
  | .errorsPayload => .ok none
  | .badShape => .error .keyError
  | .okData created_at =>
    match isoYear (pyReplace created_at "Z" "+00:00") with
    | some y => .ok (some y)
    | none => .error .valueError

/-- Embedding of `_fetch_contributions_data(username, token, query)` from
`github_api.py` as a function of the fetch outcome: `None` on a top-level
error payload, otherwise the nested `data.user` object; transport, JSON
and shape errors propagate. -/
def _fetch_contributions_data (resp : FetchResult UserData) :
    Except PyError (Option UserData) :=
  match resp with
  | .transportError => .error .requestException
  | .malformedJson => .error .jsonDecodeError
  | .errorsPayload => .ok none
  | .badShape => .error .keyError
  | .okData user_data => .ok (some user_data)

/-- Embedding of `generate_readme_content(username, token, user_comments, translator)`
from `github_api.py`, as a function of the current year and the outcomes
of its two network calls.  A `None` from either call yields the
`("", \x7b\x7d)` sentinel, modelled as `("", none)`. -/
def generate_readme_content (current_year : Nat)
    (creation_resp : FetchResult String) (contrib_resp : FetchResult UserData)
    (username : String) (user_comments : String → Option String)
    (translator : String → String) : Except PyError (String × Option ReposData) :=
  match _get_user_creation_year creation_resp with
  | .error e => .error e
  | .ok none => .ok ("", none)
  | .ok (some created_year) =>
    let _query := _build_contributions_query created_year current_year
    match _fetch_contributions_data contrib_resp with
    | .error e => .error e
    | .ok none => .ok ("", none)
    | .ok (some user_data) =>
      let repos_data := _extract_repositories_data user_data
      .ok (_build_readme_content username repos_data user_comments translator,
           some repos_data)

/-! ### Configuration manager (`save_config` from `config_manager.py`) -/

/-- The per-user entry of `user_configs`: a dict that optionally carries a
`comments` key mapping repository full names to comment strings. -/
structure UserCfg where
  comments : Option (List (String × String))
deriving DecidableEq, Repr

/-- The fields `save_config` reads from the previously persisted JSON file
via `existing_data.get(...)`: an absent file or key corresponds to the
documented defaults (`[]`, no entries, no language). -/
structure ExistingData where
  username_history : List String
  user_configs : String → Option UserCfg
  language : Option String

/-- The record `save_config` writes back to disk. -/
structure ConfigData where
  username : String
  username_history : List String
  token : String
  theme : String
  language : String
  user_configs : String → Option UserCfg

/-- Embedding of `save_config(username, token, theme, user_comments, language)` from
`config_manager.py` as a pure function from the existing configuration to
the written one.  The base64 encoding of the token is passed in as a
function, standing for `base64.b64encode`. -/
def save_config (existing : ExistingData) (username token theme : String)
    (user_comments : Option (List (String × String))) (language : Option String)
    (b64encode : String → String) : ConfigData :=
  let username_history := existing.username_history
  let username_history :=
    if username ∈ username_history then username_history.erase username
    else username_history
  let username_history := username :: username_history
  let username_history := username_history.take 10
  let user_configs := existing.user_configs
  let user_configs :=
    match user_comments with
    | some cm => fun u =>
        if u = username then some { comments := some cm } else user_configs u
    | none => user_configs
  { username := username
    username_history := username_history
    token := b64encode token
    theme := theme
    language := match language with
      | some l => l
      | none => existing.language.getD "en"
    user_configs := user_configs }

/-- Big-endian decimal digit characters of a natural number; shown below
to be the character data of `Nat.repr`, the rendering Python string
interpolation of an `int` also produces. -/
def decRepr (n : Nat) : List Char :=
  if n = 0 then ['0'] else (Nat.digits 10 n).reverse.map Nat.digitChar

/-! ### Helper lemmas: `Nat.repr` produces the decimal digits, injectively -/

theorem toDigitsCore_eq_decRepr (f : Nat) :
    ∀ n ds, n < f → Nat.toDigitsCore 10 f n ds = decRepr n ++ ds := by
  induction f with
  | zero => intro n ds h; omega
  | succ f ih =>
    intro n ds _h
    by_cases h10 : n / 10 = 0
    · have hlt : n < 10 := by omega
      by_cases h0 : n = 0
      · subst h0
        simp [Nat.toDigitsCore, decRepr]
        decide
      · have hd : Nat.digits 10 n = [n] := by
          rw [Nat.digits_def' (by norm_num : 1 < 10) (Nat.pos_of_ne_zero h0),
            Nat.mod_eq_of_lt hlt, h10, Nat.digits_zero]
        simp [Nat.toDigitsCore, h10, decRepr, h0, hd, Nat.mod_eq_of_lt hlt]
    · have hnz : n ≠ 0 := by
        intro h0; exact h10 (by simp [h0])
      have hltf : n / 10 < f := by
        have h1 : n / 10 < n := Nat.div_lt_self (Nat.pos_of_ne_zero hnz) (by norm_num)
        omega
    -- one recursion step, then the inductive hypothesis on `n / 10`
      have step : Nat.toDigitsCore 10 (f + 1) n ds =
          Nat.toDigitsCore 10 f (n / 10) (Nat.digitChar (n % 10) :: ds) := by
        simp [Nat.toDigitsCore, h10]
      rw [step, ih (n / 10) _ hltf]
      have hdig : decRepr n = decRepr (n / 10) ++ [Nat.digitChar (n % 10)] := by
        unfold decRepr
        rw [if_neg hnz, if_neg h10,
          Nat.digits_def' (by norm_num : 1 < 10) (Nat.pos_of_ne_zero hnz)]
        simp
      rw [hdig, List.append_assoc]
      rfl

theorem repr_data_eq_decRepr (n : Nat) : (Nat.repr n).data = decRepr n := by
  show (Nat.toDigits 10 n).asString.data = decRepr n
  rw [Nat.toDigits, toDigitsCore_eq_decRepr (n + 1) n [] (Nat.lt_succ_self n)]
  simp [List.asString]

theorem digitChar_inj_of_lt (d e : Nat) (hd : d < 10) (he : e < 10)
    (h : Nat.digitChar d = Nat.digitChar e) : d = e := by
  have key : ∀ a b : Fin 10, Nat.digitChar a.val = Nat.digitChar b.val → a = b := by decide
  have := key ⟨d, hd⟩ ⟨e, he⟩ h
  exact congrArg Fin.val this

theorem map_digitChar_inj : ∀ (l₁ l₂ : List Nat), (∀ d ∈ l₁, d < 10) → (∀ d ∈ l₂, d < 10) →
    l₁.map Nat.digitChar = l₂.map Nat.digitChar → l₁ = l₂ := by
  intro l₁
  induction l₁ with
  | nil => intro l₂ _ _ h; cases l₂ with
    | nil => rfl
    | cons b t => simp at h
  | cons a t ih =>
    intro l₂ h₁ h₂ h
    cases l₂ with
    | nil => simp at h
    | cons b t₂ =>
      simp only [List.map_cons, List.cons.injEq] at h
      have hab : a = b :=
        digitChar_inj_of_lt a b (h₁ a (by simp)) (h₂ b (by simp)) h.1
      have ht : t = t₂ := ih t₂ (fun d hd => h₁ d (by simp [hd]))
        (fun d hd => h₂ d (by simp [hd])) h.2
      rw [hab, ht]

theorem decRepr_injective : Function.Injective decRepr := by
  intro m n h
  unfold decRepr at h
  by_cases hm : m = 0 <;> by_cases hn : n = 0
  · omega
  · rw [if_pos hm, if_neg hn] at h
    have hlen := congrArg List.length h
    simp at hlen
    obtain ⟨d, hd⟩ := List.length_eq_one.mp hlen.symm
    rw [hd] at h
    simp at h
    have hd10 : d < 10 :=
      Nat.digits_lt_base (by norm_num) (by rw [hd]; simp)
    have : (0 : Nat) = d := digitChar_inj_of_lt 0 d (by norm_num) hd10 (by simpa using h)
    have hzero : n = Nat.ofDigits 10 (Nat.digits 10 n) := (Nat.ofDigits_digits 10 n).symm
    rw [hd, ← this] at hzero
    simp [Nat.ofDigits] at hzero
    omega
  · rw [if_neg hm, if_pos hn] at h
    have hlen := congrArg List.length h
    simp at hlen
    obtain ⟨d, hd⟩ := List.length_eq_one.mp hlen
    rw [hd] at h
    simp at h
    have hd10 : d < 10 :=
      Nat.digits_lt_base (by norm_num) (by rw [hd]; simp)
    have : d = 0 := digitChar_inj_of_lt d 0 hd10 (by norm_num) (by simpa using h)
    have hzero : m = Nat.ofDigits 10 (Nat.digits 10 m) := (Nat.ofDigits_digits 10 m).symm
    rw [hd, this] at hzero
    simp [Nat.ofDigits] at hzero
    omega
  · rw [if_neg hm, if_neg hn] at h
    have hrev : (Nat.digits 10 m).reverse = (Nat.digits 10 n).reverse :=
      map_digitChar_inj _ _
        (fun d hd => Nat.digits_lt_base (by norm_num) (List.mem_reverse.mp hd))
        (fun d hd => Nat.digits_lt_base (by norm_num) (List.mem_reverse.mp hd)) h
    have hdig : Nat.digits 10 m = Nat.digits 10 n := List.reverse_inj.mp hrev
    calc m = Nat.ofDigits 10 (Nat.digits 10 m) := (Nat.ofDigits_digits 10 m).symm
      _ = Nat.ofDigits 10 (Nat.digits 10 n) := by rw [hdig]
      _ = n := Nat.ofDigits_digits 10 n

theorem nat_repr_injective : Function.Injective Nat.repr := by
  intro m n h
  exact decRepr_injective (by rw [← repr_data_eq_decRepr, ← repr_data_eq_decRepr, h])

theorem decRepr_head_digit (n : Nat) :
    ∃ d, d < 10 ∧ (decRepr n).head? = some (Nat.digitChar d) := by
  unfold decRepr
  by_cases h0 : n = 0
  · exact ⟨0, by norm_num, by subst h0; decide⟩
  · rw [if_neg h0]
    have hne : Nat.digits 10 n ≠ [] := Nat.digits_ne_nil_iff_ne_zero.mpr h0
    cases hrev : (Nat.digits 10 n).reverse with
    | nil => exact absurd (List.reverse_eq_nil_iff.mp hrev) hne
    | cons d tl =>
      refine ⟨d, ?_, by simp [hrev]⟩
      have : d ∈ Nat.digits 10 n := by
        rw [← List.mem_reverse, hrev]; simp
      exact Nat.digits_lt_base (by norm_num) this

/-! ### Helper lemmas about the query builder -/

theorem year_query_ne_current (y : Nat) :
    _build_year_query y ≠ _build_current_year_query := by
  intro h
  obtain ⟨d, hd10, hhead⟩ := decRepr_head_digit y
  have hrepr : (toString y).data = decRepr y := repr_data_eq_decRepr y
  have hkey : (((_build_year_query y).data.drop 32).head?) = some ' ' := by
    rw [h]; decide
  have hdig : (((_build_year_query y).data.drop 32).head?) = some (Nat.digitChar d) := by
    simp only [_build_year_query, String.data_append, List.append_assoc]
    rw [show (32 : Nat) = ("\n        contributionsCollection" : String).data.length by decide]
    rw [List.drop_left, List.head?_append, hrepr, hhead]
    rfl
  have hc : Nat.digitChar d = ' ' := by
    have := hdig.symm.trans hkey
    exact Option.some.inj this
  have hno : ∀ a : Fin 10, Nat.digitChar a.val ≠ ' ' := by decide
  exact hno ⟨d, hd10⟩ hc

theorem year_alias_injective : Function.Injective year_alias := by
  intro a b h
  have hd := congrArg String.data h
  simp only [year_alias, String.data_append] at hd
  have : (toString a).data = (toString b).data := List.append_cancel_left hd
  exact nat_repr_injective (String.ext this)

/-- C6: for every pair `(creation_year, current_year)`, the built query
document consists of exactly one current-year block plus one block per
historical year in the half-open range `[creation_year, current_year)`;
each historical block opens with its distinct year-suffixed alias, the
aliases of distinct years differ; and when `creation_year >= current_year`
the range is empty and only the current-year block is emitted. -/
theorem contributions_query_structure (created_year current_year : Nat) :
    (contributions_query_blocks created_year current_year).count _build_current_year_query
        = 1 ∧
    contributions_query_blocks created_year current_year =
      _build_current_year_query ::
        (List.range' created_year (current_year - created_year)).map _build_year_query ∧
    (∀ y, ∃ rest, _build_year_query y = "\n        " ++ year_alias y ++ rest) ∧
    ((List.range' created_year (current_year - created_year)).map year_alias).Nodup ∧
    (current_year ≤ created_year →
      contributions_query_blocks created_year current_year = [_build_current_year_query]) := by
  refine ⟨?_, rfl, ?_, ?_, ?_⟩
  · rw [contributions_query_blocks, List.count_cons_self]
    have hz : (List.count _build_current_year_query
        ((List.range' created_year (current_year - created_year)).map _build_year_query)) = 0 := by
      rw [List.count_eq_zero]
      intro hmem
      obtain ⟨y, _, hy⟩ := List.mem_map.mp hmem
      exact year_query_ne_current y hy
    omega
  · intro y
    refine ⟨": contributionsCollection(from: \"" ++ (toString y ++
      ("-01-01T00:00:00Z\", to: \"" ++ (toString y ++ _year_query_tail))), ?_⟩
    rw [year_alias, ← String.append_assoc "\n        " "contributionsCollection" (toString y),
      show ("\n        " : String) ++ "contributionsCollection" =
        "\n        contributionsCollection" by decide]
    simp [_build_year_query, String.append_assoc]
  · exact List.Nodup.map year_alias_injective (List.nodup_range' _ _)
  · intro hle
    rw [contributions_query_blocks, Nat.sub_eq_zero_of_le hle]
    rfl

/-- Witness for C6: with `creation_year = current_year = 2024` the range is
empty and the block list is the current-year block alone. -/
theorem contributions_query_structure_witness :
    contributions_query_blocks 2024 2024 = [_build_current_year_query] :=
  (contributions_query_structure 2024 2024).2.2.2.2 (by decide)

/-! ### Helper lemmas about the aggregator -/

theorem validRefs_cons (r : Repo) (rs : List Repo) :
    validRefs (r :: rs) =
      if !r.isPrivate && !r.isFork then
        insert (r.nameWithOwner, r.url) (validRefs rs)
      else validRefs rs := by
  unfold validRefs
  rw [List.filter_cons]
  by_cases h : (!r.isPrivate && !r.isFork) = true
  · simp [h]
  · simp [h]

theorem validRefs_append (l₁ l₂ : List Repo) :
    validRefs (l₁ ++ l₂) = validRefs l₁ ∪ validRefs l₂ := by
  unfold validRefs
  rw [List.filter_append, List.map_append, List.toFinset_append]

theorem add_repos_eq (items : List Repo) : ∀ s a : Finset RepoRef,
    _add_repos items s a = (s ∪ validRefs items, a ∪ validRefs items) := by
  induction items with
  | nil =>
    intro s a
    simp [_add_repos, validRefs]
  | cons r rs ih =>
    intro s a
    show _add_repos rs (_add_repo_if_valid s r a).1 (_add_repo_if_valid s r a).2 = _
    rw [ih, validRefs_cons]
    unfold _add_repo_if_valid
    by_cases h : (!r.isPrivate && !r.isFork) = true
    · simp only [if_pos h]
      simp [Finset.insert_union, Finset.union_insert]
    · simp only [if_neg h]

theorem process_cc_eq (cc : CC) (c p a : Finset RepoRef) (cur : Bool) :
    _process_contribution_collection cc c p a cur =
      (c ∪ validRefs cc.commitContributionsByRepository,
       p ∪ validRefs cc.pullRequestContributionsByRepository,
       a ∪ validRefs (cc.visitedRepos cur)) := by
  unfold _process_contribution_collection CC.visitedRepos
  cases cur
  · simp [add_repos_eq, validRefs_append, Finset.union_assoc]
  · simp [add_repos_eq, validRefs_append, Finset.union_assoc]

theorem extract_fold_eq (ud : UserData) : ∀ c p a : Finset RepoRef,
    ud.foldl _extract_step (c, p, a) =
      (c ∪ commitAdmitted ud, p ∪ prAdmitted ud, a ∪ admittedRepos ud) := by
  induction ud with
  | nil =>
    intro c p a
    simp [commitAdmitted, prAdmitted, admittedRepos, processedBlocks]
  | cons kv ud ih =>
    intro c p a
    obtain ⟨key, occ⟩ := kv
    show ud.foldl _extract_step (_extract_step (c, p, a) (key, occ)) = _
    cases occ with
    | none =>
      have h1 : _extract_step (c, p, a) (key, none) = (c, p, a) := rfl
      have h2 : processedBlocks ((key, none) :: ud) = processedBlocks ud := by
        simp [processedBlocks]
      rw [h1, ih]
      simp [commitAdmitted, prAdmitted, admittedRepos, h2]
    | some cc =>
      by_cases hk : pyStartsWith key "contributionsCollection" = true
      · have h1 : _extract_step (c, p, a) (key, some cc) =
            _process_contribution_collection cc c p a (key == "contributionsCollection") := by
          simp [_extract_step, hk]
        have h2 : processedBlocks ((key, some cc) :: ud) =
            (cc, key == "contributionsCollection") :: processedBlocks ud := by
          simp [processedBlocks, hk]
        rw [h1, process_cc_eq, ih]
        simp [commitAdmitted, prAdmitted, admittedRepos, h2, Finset.union_assoc]
      · have h1 : _extract_step (c, p, a) (key, some cc) = (c, p, a) := by
          simp [_extract_step, hk]
        have h2 : processedBlocks ((key, some cc) :: ud) = processedBlocks ud := by
          simp [processedBlocks, hk]
        rw [h1, ih]
        simp [commitAdmitted, prAdmitted, admittedRepos, h2]

theorem extract_eq (ud : UserData) :
    _extract_repositories_data ud =
      { repos_commit_only := commitAdmitted ud \ prAdmitted ud
        repos_pr_only := prAdmitted ud
        repos_other := (admittedRepos ud \ commitAdmitted ud) \ prAdmitted ud } := by
  unfold _extract_repositories_data
  rw [extract_fold_eq]
  simp [Finset.empty_union, ← Finset.sdiff_eq_filter]

theorem commitAdmitted_subset (ud : UserData) : commitAdmitted ud ⊆ admittedRepos ud := by
  unfold commitAdmitted admittedRepos
  induction processedBlocks ud with
  | nil => simp
  | cons b bs ih =>
    simp only [List.foldr_cons]
    refine Finset.union_subset_union ?_ ih
    unfold CC.visitedRepos
    rw [validRefs_append, validRefs_append, validRefs_append]
    exact (Finset.subset_union_left.trans Finset.subset_union_left).trans
      Finset.subset_union_left

theorem prAdmitted_subset (ud : UserData) : prAdmitted ud ⊆ admittedRepos ud := by
  unfold prAdmitted admittedRepos
  induction processedBlocks ud with
  | nil => simp
  | cons b bs ih =>
    simp only [List.foldr_cons]
    refine Finset.union_subset_union ?_ ih
    unfold CC.visitedRepos
    rw [validRefs_append, validRefs_append, validRefs_append]
    exact ((Finset.subset_union_right.trans Finset.subset_union_left).trans
      Finset.subset_union_left)

theorem mem_validRefs {x : RepoRef} {items : List Repo} :
    x ∈ validRefs items ↔
      ∃ r ∈ items, (!r.isPrivate && !r.isFork) = true ∧ (r.nameWithOwner, r.url) = x := by
  simp only [validRefs, List.mem_toFinset, List.mem_map, List.mem_filter]
  constructor
  · rintro ⟨r, ⟨h1, h2⟩, h3⟩
    exact ⟨r, h1, h2, h3⟩
  · rintro ⟨r, h1, h2, h3⟩
    exact ⟨r, ⟨h1, h2⟩, h3⟩

theorem mem_admittedRepos {ud : UserData} {x : RepoRef} :
    x ∈ admittedRepos ud ↔
      ∃ b ∈ processedBlocks ud, x ∈ validRefs (b.1.visitedRepos b.2) := by
  unfold admittedRepos
  induction processedBlocks ud with
  | nil => simp
  | cons b bs ih =>
    simp only [List.foldr_cons, Finset.mem_union, ih, List.mem_cons]
    constructor
    · rintro (h | ⟨b', hb', hx⟩)
      · exact ⟨b, Or.inl rfl, h⟩
      · exact ⟨b', Or.inr hb', hx⟩
    · rintro ⟨b', hb' | hb', hx⟩
      · exact Or.inl (hb' ▸ hx)
      · exact Or.inr ⟨b', hb', hx⟩

/-- C1: for every raw contribution payload the three aggregated sets are
pairwise disjoint, their union is the full set of admitted (public,
non-fork) contributed repositories, and a repository with both a
qualifying commit contribution and a qualifying pull request contribution
is placed only in the pull-request set. -/
theorem aggregator_partition (ud : UserData) :
    (_extract_repositories_data ud).repos_commit_only ∩
        (_extract_repositories_data ud).repos_pr_only = ∅ ∧
    (_extract_repositories_data ud).repos_commit_only ∩
        (_extract_repositories_data ud).repos_other = ∅ ∧
    (_extract_repositories_data ud).repos_pr_only ∩
        (_extract_repositories_data ud).repos_other = ∅ ∧
    ((_extract_repositories_data ud).repos_commit_only ∪
        (_extract_repositories_data ud).repos_pr_only ∪
        (_extract_repositories_data ud).repos_other) = admittedRepos ud ∧
    ∀ r, r ∈ commitAdmitted ud → r ∈ prAdmitted ud →
      (r ∈ (_extract_repositories_data ud).repos_pr_only ∧
       r ∉ (_extract_repositories_data ud).repos_commit_only ∧
       r ∉ (_extract_repositories_data ud).repos_other) := by
  have hC := commitAdmitted_subset ud
  have hP := prAdmitted_subset ud
  rw [extract_eq]
  refine ⟨?_, ?_, ?_, ?_, ?_⟩
  · ext x
    simp only [Finset.mem_inter, Finset.mem_sdiff, Finset.not_mem_empty, iff_false]
    tauto
  · ext x
    simp only [Finset.mem_inter, Finset.mem_sdiff, Finset.not_mem_empty, iff_false]
    tauto
  · ext x
    simp only [Finset.mem_inter, Finset.mem_sdiff, Finset.not_mem_empty, iff_false]
    tauto
  · ext x
    have hCx : x ∈ commitAdmitted ud → x ∈ admittedRepos ud := fun h => hC h
    have hPx : x ∈ prAdmitted ud → x ∈ admittedRepos ud := fun h => hP h
    simp only [Finset.mem_union, Finset.mem_sdiff]
    tauto
  · intro r hr hp
    refine ⟨hp, ?_, ?_⟩
    · simp only [Finset.mem_sdiff]
      tauto
    · simp only [Finset.mem_sdiff]
      tauto

/-- Witness for C1 on a payload where `o/a` has both a commit and a pull
request contribution: it is placed in the pull-request set only. -/
theorem aggregator_partition_witness :
    ("o/a", "u/a") ∈ (_extract_repositories_data
        [("contributionsCollection", some
          { commitContributionsByRepository := [⟨"o/a", "u/a", false, false⟩],
            pullRequestContributionsByRepository :=
              [⟨"o/a", "u/a", false, false⟩] })]).repos_pr_only ∧
      ("o/a", "u/a") ∉ (_extract_repositories_data
        [("contributionsCollection", some
          { commitContributionsByRepository := [⟨"o/a", "u/a", false, false⟩],
            pullRequestContributionsByRepository :=
              [⟨"o/a", "u/a", false, false⟩] })]).repos_commit_only ∧
      ("o/a", "u/a") ∉ (_extract_repositories_data
        [("contributionsCollection", some
          { commitContributionsByRepository := [⟨"o/a", "u/a", false, false⟩],
            pullRequestContributionsByRepository :=
              [⟨"o/a", "u/a", false, false⟩] })]).repos_other :=
  (aggregator_partition
    [("contributionsCollection", some
      { commitContributionsByRepository := [⟨"o/a", "u/a", false, false⟩],
        pullRequestContributionsByRepository :=
          [⟨"o/a", "u/a", false, false⟩] })]).2.2.2.2
    ("o/a", "u/a") (by decide) (by decide)

/-- C2: a repository all of whose payload occurrences are flagged private
or fork never appears in any of the three output sets. -/
theorem flagged_repo_invisible (ud : UserData) (x : RepoRef)
    (h : ∀ b ∈ processedBlocks ud, ∀ r ∈ b.1.visitedRepos b.2,
      (r.nameWithOwner, r.url) = x → r.isPrivate = true ∨ r.isFork = true) :
    x ∉ (_extract_repositories_data ud).repos_commit_only ∧
    x ∉ (_extract_repositories_data ud).repos_pr_only ∧
    x ∉ (_extract_repositories_data ud).repos_other := by
  have hA : x ∉ admittedRepos ud := by
    rw [mem_admittedRepos]
    rintro ⟨b, hb, hx⟩
    rw [mem_validRefs] at hx
    obtain ⟨r, hr, hval, href⟩ := hx
    rcases h b hb r hr href with h1 | h1 <;> simp [h1] at hval
  rw [extract_eq]
  refine ⟨?_, ?_, ?_⟩
  · intro hx
    exact hA (commitAdmitted_subset ud (Finset.mem_sdiff.mp hx).1)
  · intro hx
    exact hA (prAdmitted_subset ud hx)
  · intro hx
    exact hA (Finset.mem_sdiff.mp (Finset.mem_sdiff.mp hx).1).1

/-- Witness for C2: a forked repository contributed to by commit never
shows up in any output set. -/
theorem flagged_repo_invisible_witness :
    ("o/f", "u/f") ∉ (_extract_repositories_data
        [("contributionsCollection", some
          { commitContributionsByRepository :=
              [⟨"o/f", "u/f", false, true⟩] })]).repos_commit_only ∧
      ("o/f", "u/f") ∉ (_extract_repositories_data
        [("contributionsCollection", some
          { commitContributionsByRepository :=
              [⟨"o/f", "u/f", false, true⟩] })]).repos_pr_only ∧
      ("o/f", "u/f") ∉ (_extract_repositories_data
        [("contributionsCollection", some
          { commitContributionsByRepository :=
              [⟨"o/f", "u/f", false, true⟩] })]).repos_other :=
  flagged_repo_invisible
    [("contributionsCollection", some
      { commitContributionsByRepository := [⟨"o/f", "u/f", false, true⟩] })]
    ("o/f", "u/f") (by decide)

/-! ### Helper lemmas about the renderer -/

theorem foldl_insert_eq (l : List RepoRef) : ∀ s : Finset RepoRef,
    l.foldl (fun s r => insert r s) s = s ∪ l.toFinset := by
  induction l with
  | nil => intro s; simp
  | cons a tl ih =>
    intro s
    show tl.foldl (fun s r => insert r s) (insert a s) = _
    rw [ih]
    rw [List.toFinset_cons, Finset.insert_union, Finset.union_insert]

theorem ingest_eq_toFinset (l : List RepoRef) : ingest l = l.toFinset := by
  unfold ingest
  rw [foldl_insert_eq]
  exact Finset.empty_union _

theorem section_eq_nil_iff (k : String) (s : Finset RepoRef)
    (c : String → Option String) (t : String → String) :
    _build_readme_section k s c t = [] ↔ s = ∅ := by
  unfold _build_readme_section
  by_cases h : s = ∅
  · simp [h]
  · simp [h]

/-- C3: for every ingestion order of a category set whose repositories
have pairwise distinct full names, the bullet rows of the rendered section
are strictly ascending by full name, and the rendered section is identical
for every permutation of the ingestion order. -/
theorem section_sorted_and_order_independent (l l' : List RepoRef) (k : String)
    (c : String → Option String) (t : String → String)
    (hperm : l.Perm l')
    (hinj : ∀ a ∈ ingest l, ∀ b ∈ ingest l, a.1 = b.1 → a = b) :
    List.Sorted (fun x y : String => x < y) ((sortedRepos (ingest l)).map Prod.fst) ∧
    _build_readme_section k (ingest l) c t = _build_readme_section k (ingest l') c t := by
  constructor
  · have h1 : List.Sorted repoLE (sortedRepos (ingest l)) := Finset.sort_sorted repoLE _
    have h2 : (sortedRepos (ingest l)).Nodup := Finset.sort_nodup repoLE _
    have h3 : List.Pairwise (fun a b : RepoRef => repoLE a b ∧ a ≠ b)
        (sortedRepos (ingest l)) := h1.and h2
    have h4 : List.Pairwise (fun a b : RepoRef => a.1 < b.1) (sortedRepos (ingest l)) := by
      refine List.Pairwise.imp_of_mem ?_ h3
      intro a b ha hb hab
      have haM : a ∈ ingest l := (Finset.mem_sort repoLE).1 ha
      have hbM : b ∈ ingest l := (Finset.mem_sort repoLE).1 hb
      rcases (Prod.Lex.le_iff a b).1 hab.1 with h | ⟨heq, _⟩
      · exact h
      · exact absurd (hinj a haM b hbM heq) hab.2
    rw [List.Sorted, List.pairwise_map]
    exact h4
  · have he : ingest l = ingest l' := by
      rw [ingest_eq_toFinset, ingest_eq_toFinset]
      exact List.toFinset_eq_of_perm l l' hperm
    rw [he]

/-- Witness for C3 on a two-element set ingested in two opposite orders. -/
theorem section_sorted_witness :
    List.Sorted (fun x y : String => x < y)
      ((sortedRepos (ingest [("b", "ub"), ("a", "ua")])).map Prod.fst) ∧
    _build_readme_section "k" (ingest [("b", "ub"), ("a", "ua")])
        (fun _ => none) (fun s => s) =
      _build_readme_section "k" (ingest [("a", "ua"), ("b", "ub")])
        (fun _ => none) (fun s => s) :=
  section_sorted_and_order_independent [("b", "ub"), ("a", "ua")] [("a", "ua"), ("b", "ub")]
    "k" (fun _ => none) (fun s => s)
    (List.Perm.swap ("a", "ua") ("b", "ub") []) (by decide)

/-- C9: with a comment recorded for a rendered repository, its bullet line
carries the `— comment` suffix; removing the comment and re-rendering
yields the same bullet line, at the same position, without the suffix. -/
theorem comment_roundtrip (k : String) (s : Finset RepoRef) (c : String → Option String)
    (t : String → String) (name url comment : String)
    (hmem : (name, url) ∈ s) (hc : c name = some comment) :
    ∃ i : Nat, (_build_readme_section k s c t)[i]? =
        some ("- [" ++ name ++ "](" ++ url ++ ")" ++ " — " ++ comment) ∧
      (_build_readme_section k s (remove_comment c name) t)[i]? =
        some ("- [" ++ name ++ "](" ++ url ++ ")") := by
  have hne : s ≠ ∅ := Finset.ne_empty_of_mem hmem
  have hmemS : (name, url) ∈ sortedRepos s := by
    rw [sortedRepos, Finset.mem_sort]
    exact hmem
  obtain ⟨j, hj⟩ := List.mem_iff_getElem?.1 hmemS
  refine ⟨j + 1, ?_, ?_⟩
  · unfold _build_readme_section
    rw [if_neg hne, List.getElem?_cons_succ, List.getElem?_map, hj]
    simp [render_bullet, hc]
  · unfold _build_readme_section
    rw [if_neg hne, List.getElem?_cons_succ, List.getElem?_map, hj]
    simp [render_bullet, remove_comment]

/-- Witness for C9 on a one-repository section. -/
theorem comment_roundtrip_witness :
    ∃ i : Nat, (_build_readme_section "k" {("r", "u")}
        (fun n => if n = "r" then some "hi" else none) (fun s => s))[i]? =
        some ("- [" ++ "r" ++ "](" ++ "u" ++ ")" ++ " — " ++ "hi") ∧
      (_build_readme_section "k" {("r", "u")}
        (remove_comment (fun n => if n = "r" then some "hi" else none) "r") (fun s => s))[i]? =
        some ("- [" ++ "r" ++ "](" ++ "u" ++ ")") :=
  comment_roundtrip "k" {("r", "u")} (fun n => if n = "r" then some "hi" else none)
    (fun s => s) "r" "u" "hi" (by decide) (by simp)

/-- C8: an empty category set contributes no heading, no bullets and no
blank separator line: the rendered document is the title line followed by
exactly the non-empty sections, each non-first section preceded by one
blank line; with all three sets empty the document is the title line
alone. -/
theorem empty_sections_omitted :
    (∀ k (c : String → Option String) (t : String → String),
      _build_readme_section k ∅ c t = []) ∧
    (∀ u (d : ReposData) (c : String → Option String) (t : String → String),
      _build_readme_content u d c t = String.intercalate "\n"
        ((["# " ++ t "categories.profile_git" ++ " : " ++ u ++ "\n"] ++
          _build_readme_section "categories.commit_only" d.repos_commit_only c t) ++
          ((if d.repos_pr_only = ∅ then [] else
            "" :: _build_readme_section "categories.pull_requests" d.repos_pr_only c t) ++
          (if d.repos_other = ∅ then [] else
            "" :: _build_readme_section "categories.other_contributions" d.repos_other c t)))) ∧
    (∀ u (c : String → Option String) (t : String → String),
      _build_readme_content u ⟨∅, ∅, ∅⟩ c t =
        "# " ++ t "categories.profile_git" ++ " : " ++ u ++ "\n") := by
  refine ⟨?_, ?_, ?_⟩
  · intro k c t
    unfold _build_readme_section
    simp
  · intro u d c t
    unfold _build_readme_content
    have hemp : ∀ k, _build_readme_section k ∅ c t = [] := fun k => by
      unfold _build_readme_section
      simp
    by_cases hp : d.repos_pr_only = ∅ <;> by_cases ho : d.repos_other = ∅
    · rw [hp, ho]
      simp [hemp]
    · have hos : _build_readme_section "categories.other_contributions" d.repos_other c t ≠ [] := by
        rw [ne_eq, section_eq_nil_iff]
        exact ho
      rw [hp]
      simp [hemp, hos, ho, List.append_assoc]
    · have hps : _build_readme_section "categories.pull_requests" d.repos_pr_only c t ≠ [] := by
        rw [ne_eq, section_eq_nil_iff]
        exact hp
      rw [ho]
      simp [hemp, hps, hp, List.append_assoc]
    · have hps : _build_readme_section "categories.pull_requests" d.repos_pr_only c t ≠ [] := by
        rw [ne_eq, section_eq_nil_iff]
        exact hp
      have hos : _build_readme_section "categories.other_contributions" d.repos_other c t ≠ [] := by
        rw [ne_eq, section_eq_nil_iff]
        exact ho
      simp [hps, hos, hp, ho, List.append_assoc]
  · intro u c t
    unfold _build_readme_content _build_readme_section
    simp
    rfl

/-! ### Claims about the configuration manager -/

/-- C7: starting from any duplicate-free history, the saved history holds
the saved username exactly once, in first position, has at most 10
entries, and saving an eleventh distinct username drops the oldest
entry. -/
theorem history_update (existing : ExistingData) (username token theme : String)
    (cm : Option (List (String × String))) (lang : Option String)
    (b64encode : String → String)
    (hnd : existing.username_history.Nodup) :
    (save_config existing username token theme cm lang b64encode).username_history.head? =
        some username ∧
    (save_config existing username token theme cm lang b64encode).username_history.count
        username = 1 ∧
    (save_config existing username token theme cm lang b64encode).username_history.length
        ≤ 10 ∧
    (username ∉ existing.username_history → existing.username_history.length = 10 →
      (save_config existing username token theme cm lang b64encode).username_history =
        username :: existing.username_history.take 9) := by
  have hh : (save_config existing username token theme cm lang b64encode).username_history =
      (username ::
        (if username ∈ existing.username_history then
          existing.username_history.erase username
        else existing.username_history)).take 10 := by
    unfold save_config
    rfl
  have hnotmem : username ∉
      (if username ∈ existing.username_history then
        existing.username_history.erase username
      else existing.username_history) := by
    by_cases hm : username ∈ existing.username_history
    · rw [if_pos hm]
      intro hcon
      exact ((hnd.mem_erase_iff.mp hcon).1) rfl
    · rw [if_neg hm]
      exact hm
  refine ⟨?_, ?_, ?_, ?_⟩
  · rw [hh, List.take_succ_cons]
    rfl
  · rw [hh, List.take_succ_cons, List.count_cons_self]
    have : List.count username
        ((if username ∈ existing.username_history then
          existing.username_history.erase username
        else existing.username_history).take 9) = 0 := by
      rw [List.count_eq_zero]
      intro hcon
      exact hnotmem (List.take_subset 9 _ hcon)
    omega
  · rw [hh, List.length_take]
    omega
  · intro hmem _
    rw [hh, if_neg hmem, List.take_succ_cons]

/-- Witness for C7: saving an eleventh distinct username onto a full
ten-entry history keeps the new name first and drops the oldest. -/
theorem history_update_witness :
    (save_config
        ⟨["u0", "u1", "u2", "u3", "u4", "u5", "u6", "u7", "u8", "u9"], fun _ => none, none⟩
        "z" "tok" "light" none none (fun s => s)).username_history =
      "z" :: (["u0", "u1", "u2", "u3", "u4", "u5", "u6", "u7", "u8", "u9"] :
        List String).take 9 :=
  (history_update
      ⟨["u0", "u1", "u2", "u3", "u4", "u5", "u6", "u7", "u8", "u9"], fun _ => none, none⟩
      "z" "tok" "light" none none (fun s => s) (by decide)).2.2.2 (by decide) (by decide)

/-- C10: saving a comment map for one username rewrites only that
username's entry of `user_configs`, leaves every other entry untouched,
and, with no language argument, keeps the previously stored language. -/
theorem save_config_frame (existing : ExistingData) (username token theme : String)
    (m : List (String × String)) (lang : Option String) (b64encode : String → String) :
    (∀ u, u ≠ username →
      (save_config existing username token theme (some m) lang b64encode).user_configs u =
        existing.user_configs u) ∧
    (save_config existing username token theme (some m) lang b64encode).user_configs
        username = some ⟨some m⟩ ∧
    (∀ l, existing.language = some l →
      (save_config existing username token theme (some m) none b64encode).language = l) := by
  refine ⟨?_, ?_, ?_⟩
  · intro u hu
    show (if u = username then some ⟨some m⟩ else existing.user_configs u) = _
    rw [if_neg hu]
  · show (if username = username then some ⟨some m⟩ else existing.user_configs username) = _
    rw [if_pos rfl]
  · intro l hl
    show existing.language.getD "en" = l
    rw [hl]
    rfl

/-- Witness for C10: a different username's entry and the stored language
survive a comment save. -/
theorem save_config_frame_witness :
    (save_config ⟨[], fun u => if u = "other" then some ⟨some [("r", "c")]⟩ else none,
        some "fr"⟩ "me" "tok" "dark" (some [("repo", "note")]) none
        (fun s => s)).user_configs "other" =
      (⟨[], fun u => if u = "other" then some ⟨some [("r", "c")]⟩ else none,
        some "fr"⟩ : ExistingData).user_configs "other" ∧
    (save_config ⟨[], fun u => if u = "other" then some ⟨some [("r", "c")]⟩ else none,
        some "fr"⟩ "me" "tok" "dark" (some [("repo", "note")]) none
        (fun s => s)).language = "fr" :=
  ⟨(save_config_frame ⟨[], fun u => if u = "other" then some ⟨some [("r", "c")]⟩ else none,
      some "fr"⟩ "me" "tok" "dark" [("repo", "note")] none (fun s => s)).1
    "other" (by decide),
   (save_config_frame ⟨[], fun u => if u = "other" then some ⟨some [("r", "c")]⟩ else none,
      some "fr"⟩ "me" "tok" "dark" [("repo", "note")] none (fun s => s)).2.2
    "fr" rfl⟩

/-! ### Claims about the API client -/

/-- Counterexample to C4 as stated: a transport failure makes
`test_github_auth` raise (model: return an error) instead of returning
false, and a present but empty `login` string already yields true even
though the claim requires a non-empty login. -/
theorem auth_claim_counterexample :
    test_github_auth .transportError = .error .requestException ∧
    test_github_auth
        (.json [("data", .obj [("viewer", .obj [("login", .str "")])])]) = .ok true :=
  ⟨rfl, rfl⟩

/-- C4 (amended): on a parsed object response, `test_github_auth` returns
true iff the response has no top-level error list and carries a present,
non-null `data.viewer.login` field; transport failures and malformed JSON
raise to the caller instead of returning false. -/
theorem auth_ok_characterization :
    (∀ fields, test_github_auth (.json fields) = .ok true ↔ auth_success_spec fields = true) ∧
    test_github_auth .transportError = .error .requestException ∧
    test_github_auth .malformedJson = .error .jsonDecodeError := by
  refine ⟨?_, rfl, rfl⟩
  intro fields
  unfold test_github_auth auth_success_spec
  cases hE : lookupField fields "errors" with
  | some v => simp [hE]
  | none =>
    simp only [hE, Option.isSome_none, Bool.false_eq_true, if_false, Option.isNone_none,
      Bool.true_and, JVal.dictGet]
    cases hD : (lookupField fields "data").getD (JVal.obj []) <;> simp
    case obj dfields =>
      cases hV : (lookupField dfields "viewer").getD (JVal.obj []) <;> simp
      case obj vfields =>
        cases hL : (lookupField vfields "login").getD JVal.null <;> simp

/-- Counterexample to C5 as stated: a malformed (unparseable) response to
the account-creation-year lookup makes `generate_readme_content` raise
(model: return an error) instead of returning the empty-document
sentinel. -/
theorem generate_readme_claim_counterexample :
    generate_readme_content 2024 .malformedJson .errorsPayload "user" (fun _ => none)
      (fun k => k) = .error .jsonDecodeError := rfl

/-- C5 (amended): `generate_readme_content` returns the `("", \x7b\x7d)`
sentinel exactly when the creation-year lookup or the contribution fetch
answers with a top-level error payload; transport failures, malformed
JSON and missing nested fields instead raise to the caller. -/
theorem generate_readme_failure_sentinel :
    (∀ current_year (r2 : FetchResult UserData) u
        (c : String → Option String) (t : String → String),
      generate_readme_content current_year .errorsPayload r2 u c t = .ok ("", none)) ∧
    (∀ current_year s y u (c : String → Option String) (t : String → String),
      isoYear (pyReplace s "Z" "+00:00") = some y →
      generate_readme_content current_year (.okData s) .errorsPayload u c t =
        .ok ("", none)) ∧
    (∀ current_year (r2 : FetchResult UserData) u
        (c : String → Option String) (t : String → String),
      generate_readme_content current_year .transportError r2 u c t =
        .error .requestException) ∧
    (∀ current_year (r2 : FetchResult UserData) u
        (c : String → Option String) (t : String → String),
      generate_readme_content current_year .malformedJson r2 u c t =
        .error .jsonDecodeError) ∧
    (∀ current_year (r2 : FetchResult UserData) u
        (c : String → Option String) (t : String → String),
      generate_readme_content current_year .badShape r2 u c t = .error .keyError) ∧
    (∀ current_year s y u (c : String → Option String) (t : String → String),
      isoYear (pyReplace s "Z" "+00:00") = some y →
      generate_readme_content current_year (.okData s) .transportError u c t =
        .error .requestException) := by
  refine ⟨fun _ _ _ _ _ => rfl, ?_, fun _ _ _ _ _ => rfl, fun _ _ _ _ _ => rfl,
    fun _ _ _ _ _ => rfl, ?_⟩
  · intro current_year s y u c t hy
    unfold generate_readme_content _get_user_creation_year
    simp [hy, _fetch_contributions_data]
  · intro current_year s y u c t hy
    unfold generate_readme_content _get_user_creation_year
    simp [hy, _fetch_contributions_data]

/-- Witness for C5 (amended): a concrete failed contribution fetch after a
successful creation-year parse yields the sentinel. -/
theorem generate_readme_failure_sentinel_witness :
    generate_readme_content 2024 (.okData "2016-05-01T00:00:00Z") .errorsPayload "user"
        (fun _ => none) (fun k => k) = .ok ("", none) :=
  generate_readme_failure_sentinel.2.1 2024 "2016-05-01T00:00:00Z" 2016 "user"
    (fun _ => none) (fun k => k) (by decide)

/-- Witness for C4 (amended): a well-shaped viewer response with a
non-null login authenticates. -/
theorem auth_ok_characterization_witness :
    test_github_auth
        (.json [("data", JVal.obj [("viewer", JVal.obj [("login", JVal.str "me")])])]) =
      .ok true :=
  (auth_ok_characterization.1
    [("data", JVal.obj [("viewer", JVal.obj [("login", JVal.str "me")])])]).mpr (by decide)
